import Mathlib

/-!
Verification of the gsfxx record framing and decoding core
(generic-sensor-format repository).

The repository ships the public header `src/gsfxx/gsfxx.h` (class and
function declarations), the CLI collaborator `src/bin/gsf_info.cc`, and the
unit tests `tests/gsfxx/records_test.cc`.  The implementation translation
unit for the core (the bodies of `FileReaderMmap::NextBuffer`,
`Header::Decode`, `Comment::Decode`, `SecNsecToTimePoint`,
`TimePointToSeconds`, `SwapEndian`, `RecordBuffer::ToString`,
`RecordBuffer::ToUnsignedInt32`) is not part of the source tree, so those
operations are modelled from the specification, as marked on each
definition.  The CLI tool `gsf_info.cc` is present in full and is embedded
from its source.  The models are checked against every byte-level test
vector of `records_test.cc` in the theorem section.
-/

namespace Gsfxx

/-- A byte of the mapped file.  `RecordBuffer` exposes read-only bytes. -/
abbrev Byte := Fin 256

/-- Modelled from the spec: `readU32(bytes, offset)`, the big-endian 4-byte
unsigned read of `BigEndianCodec` (declared as `SwapEndian` /
`RecordBuffer::ToUnsignedInt32` in gsfxx.h; bodies missing from the tree).
Partial variant used by the framer: `none` models a raw out-of-bounds
access, which the `ByteSource` contract forbids from ever surfacing. -/
def readU32 (bytes : List Byte) (offset : Nat) : Option Nat :=
  match bytes[offset]?, bytes[offset + 1]?, bytes[offset + 2]?, bytes[offset + 3]? with
  | some b0, some b1, some b2, some b3 =>
      some (b0.val * 2 ^ 24 + b1.val * 2 ^ 16 + b2.val * 2 ^ 8 + b3.val)
  | _, _, _, _ => none

/-- Modelled from the spec: total big-endian read used by the payload
decoders.  Out-of-range accesses read the default byte 0; every use is
guarded by a payload-length check, so the default is never decisive. -/
def readU32D (bytes : List Byte) (offset : Nat) : Nat :=
  (bytes.getD offset 0).val * 2 ^ 24 + (bytes.getD (offset + 1) 0).val * 2 ^ 16 +
    (bytes.getD (offset + 2) 0).val * 2 ^ 8 + (bytes.getD (offset + 3) 0).val

/-- Big-endian encoding of a 32-bit word, used to build the byte sources the
framing and decoding claims quantify over. -/
def be32 (n : Nat) : List Byte :=
  [⟨n / 2 ^ 24 % 256, by omega⟩, ⟨n / 2 ^ 16 % 256, by omega⟩,
   ⟨n / 2 ^ 8 % 256, by omega⟩, ⟨n % 256, by omega⟩]

/-- Reinterpret a 32-bit unsigned word as the signed two's-complement value,
as the comment decoder does for the `sec`/`nsec` fields. -/
def toInt32 (u : Nat) : Int :=
  if u < 2 ^ 31 then (u : Int) else (u : Int) - 2 ^ 32

/-- Two's-complement encoding of a signed value into a 32-bit word. -/
def ofInt32 (s : Int) : Nat :=
  (s % 2 ^ 32).toNat

/-- The closed record-type enumeration of gsfxx.h (`RecordType`). -/
inductive RecordType where
  | invalid
  | header
  | swathBathymetryPing
  | soundVelocityProfile
  | processingParameters
  | sensorParameters
  | comment
  | history
  | navigationError
  | swathBathySummary
  | singleBeamPing
  | hvNavigationError
  | attitude
deriving DecidableEq

/-- Map a raw record-type tag to the enumeration; tags outside 1..12 map to
`invalid`, as gsfxx.h's enumeration and the spec prescribe. -/
def recordTypeOfNat (n : Nat) : RecordType :=
  if n = 1 then .header
  else if n = 2 then .swathBathymetryPing
  else if n = 3 then .soundVelocityProfile
  else if n = 4 then .processingParameters
  else if n = 5 then .sensorParameters
  else if n = 6 then .comment
  else if n = 7 then .history
  else if n = 8 then .navigationError
  else if n = 9 then .swathBathySummary
  else if n = 10 then .singleBeamPing
  else if n = 11 then .hvNavigationError
  else if n = 12 then .attitude
  else .invalid

/-- A `RecordBuffer`: one record's payload slice tagged with its type (the
spec's `RecordView`); `rawType` carries the raw tag for diagnostics. -/
structure RecordView where
  rtype : RecordType
  rawType : Nat
  payload : List Byte
deriving DecidableEq

/-- The spec's `FrameError` taxonomy for `RecordFramer.next()`. -/
inductive FrameError where
  | truncatedSize
  | invalidLength
deriving DecidableEq

/-- One outcome of `RecordFramer.next()` (`FileReaderMmap::NextBuffer`). -/
inductive FrameOut where
  | endOfStream
  | err (e : FrameError)
  | view (v : RecordView)
deriving DecidableEq

/-- Modelled from the spec: `FileReaderMmap::NextBuffer` (body missing from
the tree), the `RecordFramer.next()` step of spec section 4.2 over the
source bytes and the cursor.  Frame layout: `size:uint32,
type_and_flags:uint32, [checksum:uint32 if the high flag bit is set],
payload` with `payload_len = size - 4 - (4 if checksum flag set else 0)`;
the low-order bits of the type word identify the record type; the cursor
advances past the full frame (`4 + size` bytes).  The spec folds
`ByteSource` out-of-bounds guards into `FrameError`; a negative payload
length or a frame extending past `end` is `InvalidLength`.  The outer
`Option` is the raw-access model of `readU32`: a `none` would mean a read
outside the source's bounds, which never happens.  Returns the outcome
together with the new cursor. -/
def framerNext (src : List Byte) (cursor : Nat) : Option (FrameOut × Nat) :=
  if src.length ≤ cursor then some (.endOfStream, cursor)
  else if src.length < cursor + 4 then some (.err .truncatedSize, cursor)
  else
    (readU32 src cursor).bind fun size =>
      if src.length < cursor + 4 + size ∨ size < 4 then
        some (.err .invalidLength, cursor)
      else
        (readU32 src (cursor + 4)).bind fun tf =>
          if size < 4 + (if 2 ^ 31 ≤ tf then 4 else 0) then
            some (.err .invalidLength, cursor)
          else
            some (.view ⟨recordTypeOfNat (tf % 2 ^ 31), tf % 2 ^ 31,
              (src.drop (cursor + 4 + (4 + (if 2 ^ 31 ≤ tf then 4 else 0)))).take
                (size - (4 + (if 2 ^ 31 ≤ tf then 4 else 0)))⟩,
              cursor + 4 + size)

/-- The spec's `FormatError` taxonomy for the payload decoders. -/
inductive FormatError where
  | wrongSize
  | badMagic
  | badVersion
  | truncated
deriving DecidableEq

/-- The decoded HEADER record of gsfxx.h (`Header`). -/
structure HeaderRecord where
  version_major : Nat
  version_minor : Nat
deriving DecidableEq

/-- An ASCII decimal digit byte. -/
def isDigit (b : Byte) : Bool :=
  decide (0x30 ≤ b.val ∧ b.val ≤ 0x39)

/-- Numeric value of an ASCII decimal digit byte. -/
def digitVal (b : Byte) : Nat :=
  b.val - 0x30

/-- Modelled from the spec: `Header::Decode` (body missing from the tree),
spec section 4.4, with the internal `FormatError` kind made explicit.
Checks in order: payload length exactly 12 (else `WrongSize`); bytes 0..3
are ASCII "GSF-" (else `BadMagic`); byte 4 is ASCII 'v' (else `BadMagic`);
bytes 5..6 are decimal digits (else `BadVersion`); byte 7 is ASCII '.'
(else `BadVersion`); bytes 8..9 are decimal digits (else `BadVersion`).
Bytes 10..11 are ignored padding. -/
def headerDecodeE (p : List Byte) : Except FormatError HeaderRecord :=
  if p.length ≠ 12 then .error .wrongSize
  else if ¬((p.getD 0 0).val = 0x47 ∧ (p.getD 1 0).val = 0x53 ∧
      (p.getD 2 0).val = 0x46 ∧ (p.getD 3 0).val = 0x2D) then .error .badMagic
  else if (p.getD 4 0).val ≠ 0x76 then .error .badMagic
  else if ¬(isDigit (p.getD 5 0) ∧ isDigit (p.getD 6 0)) then .error .badVersion
  else if (p.getD 7 0).val ≠ 0x2E then .error .badVersion
  else if ¬(isDigit (p.getD 8 0) ∧ isDigit (p.getD 9 0)) then .error .badVersion
  else .ok ⟨digitVal (p.getD 5 0) * 10 + digitVal (p.getD 6 0),
            digitVal (p.getD 8 0) * 10 + digitVal (p.getD 9 0)⟩

/-- `Header::Decode` as declared in gsfxx.h: `unique_ptr<Header>`, i.e. a
decoded record on success and the null pointer on any failure; the failure
kind is erased at this interface. -/
def headerDecode (p : List Byte) : Option HeaderRecord :=
  (headerDecodeE p).toOption

/-- A point in time with nanosecond resolution (the
`std::chrono::system_clock::time_point` of gsfxx.h), in integer nanoseconds
since the epoch. -/
abbrev PointInTime := Int

/-- Modelled from the spec: `SecNsecToTimePoint` / `epochToTime` (body
missing from the tree): combines signed seconds since the epoch and a
nanosecond offset into a single point in time. -/
def epochToTime (sec : Int) (nsec : Int) : PointInTime :=
  sec * 10 ^ 9 + nsec

/-- Modelled from the spec: `TimePointToSeconds` / `timeToSeconds` (body
missing from the tree): fractional seconds since the epoch.  The C++
version returns a float64; the model computes the value it approximates in
exact rational arithmetic, so the spec's tolerance bounds hold with zero
error here. -/
def timeToSeconds (t : PointInTime) : ℚ :=
  (t : ℚ) / 10 ^ 9

/-- The decoded COMMENT record of gsfxx.h (`Comment`). -/
structure CommentRecord where
  time_point : PointInTime
  comment : List Byte
deriving DecidableEq

/-- Modelled from the spec: `Comment::Decode` (body missing from the tree),
spec section 4.4, with the internal `FormatError` kind made explicit.
Layout: bytes 0..3 signed big-endian seconds, bytes 4..7 signed big-endian
nanoseconds, bytes 8..11 unsigned big-endian text length `N`, bytes
12..12+N the text; trailing NUL padding is excluded from the result.
Fails with `Truncated` when the payload is shorter than `12 + N` bytes
(which also covers any payload too short for the fixed fields, since the
out-of-bounds guard surfaces as a `FormatError`). -/
def commentDecodeE (p : List Byte) : Except FormatError CommentRecord :=
  if p.length < 12 + readU32D p 8 then .error .truncated
  else .ok ⟨epochToTime (toInt32 (readU32D p 0)) (toInt32 (readU32D p 4)),
    (p.drop 12).take (readU32D p 8)⟩

/-- `Comment::Decode` as declared in gsfxx.h: `unique_ptr<Comment>`, i.e. a
decoded record on success and the null pointer on any failure; the failure
kind is erased at this interface. -/
def commentDecode (p : List Byte) : Option CommentRecord :=
  (commentDecodeE p).toOption

/-- The ASCII byte of a decimal digit. -/
def digitByte (d : Nat) : Byte :=
  ⟨0x30 + d % 10, by omega⟩

/-- A well-formed 12-byte HEADER payload: `"GSF-v" MM "." mm` followed by
two padding bytes (spec section 6). -/
def encodeHeader (maj min : Nat) (pad1 pad2 : Byte) : List Byte :=
  [0x47, 0x53, 0x46, 0x2D, 0x76, digitByte (maj / 10), digitByte (maj % 10),
   0x2E, digitByte (min / 10), digitByte (min % 10), pad1, pad2]

/-- Length of the NUL padding that rounds `n` text bytes up to a 4-byte
boundary. -/
def pad4 (n : Nat) : Nat :=
  (4 - n % 4) % 4

/-- A well-formed COMMENT payload: big-endian seconds, nanoseconds and text
length, the text bytes, and NUL padding to the next 4-byte boundary (spec
section 6). -/
def encodeComment (sec nsec : Int) (text : List Byte) : List Byte :=
  be32 (ofInt32 sec) ++ be32 (ofInt32 nsec) ++ be32 text.length ++ text ++
    List.replicate (pad4 text.length) 0

/-- A well-formed frame around a payload: big-endian declared size and
type-and-flags word, the optional checksum word (present exactly when the
high flag bit of the type word is set), then the payload (spec section 6). -/
def encodeFrame (rtype : Nat) (chk : Option Nat) (payload : List Byte) : List Byte :=
  be32 (4 + (if chk.isSome then 4 else 0) + payload.length) ++
    be32 (rtype + if chk.isSome then 2 ^ 31 else 0) ++
    (match chk with
     | some c => be32 c
     | none => []) ++
    payload

/-- Exit behaviour of a modelled process run: either a defined return from
`main` with an exit code, or a crash from dereferencing a null pointer,
which is undefined behaviour in the C++ source and not a defined exit
status. -/
inductive ExitStatus where
  | status (code : Int)
  | crash
deriving DecidableEq

/-- The record-printing loop of `gsfxx::Info` (src/bin/gsf_info.cc, lines
38..41): `while ((buf = file->NextBuffer())) { ... }`, then `return 0`.
A frame error or end-of-stream makes `NextBuffer` return null, ending the
loop; output is ignored by the model.  Termination: a produced view always
advances the cursor. -/
def infoLoop (src : List Byte) (cursor : Nat) : ExitStatus :=
  match h : framerNext src cursor with
  | none => .crash
  | some (.endOfStream, _) => .status 0
  | some (.err _, _) => .status 0
  | some (.view _, c) => infoLoop src c
termination_by src.length - cursor
decreasing_by
  have hb : cursor < src.length ∧ cursor + 8 ≤ c ∧ c ≤ src.length := by
    unfold framerNext at h
    split at h
    · simp at h
    · split at h
      · simp at h
      · rcases h1 : readU32 src cursor with _ | size
        · rw [h1] at h
          simp at h
        · rw [h1] at h
          simp only [Option.some_bind] at h
          split at h
          · simp at h
          · rcases h2 : readU32 src (cursor + 4) with _ | tf
            · rw [h2] at h
              simp at h
            · rw [h2] at h
              simp only [Option.some_bind] at h
              repeat' split at h
              all_goals first
                | (simp at h
                   done)
                | (simp only [Option.some.injEq, Prod.mk.injEq, FrameOut.view.injEq] at h
                   obtain ⟨-, rfl⟩ := h
                   omega)
  omega

/-- `gsfxx::Info` (src/bin/gsf_info.cc, lines 30..43), embedded from its
source.  `openResult` is the bytes `FileReaderMmap::Open` mapped, or `none`
when `Open` fails and returns a null pointer.  The source checks no result
for null: `file->NextBuffer()` on a failed `Open`, `buf->type()` on a null
first buffer, and `header->version_major()` on a failed decode each
dereference a null pointer (`ExitStatus.crash`); every defined path returns
exit code 0. -/
def Info (openResult : Option (List Byte)) : ExitStatus :=
  match openResult with
  | none => .crash
  | some src =>
    match framerNext src 0 with
    | none => .crash
    | some (.endOfStream, _) => .crash
    | some (.err _, _) => .crash
    | some (.view v, c) =>
      match headerDecode v.payload with
      | none => .crash
      | some _ => infoLoop src c

theorem toInt32_ofInt32 (s : Int) (h1 : -(2 ^ 31) ≤ s) (h2 : s < 2 ^ 31) :
    toInt32 (ofInt32 s) = s := by
  unfold toInt32 ofInt32
  split <;> omega

theorem ofInt32_lt (s : Int) : ofInt32 s < 2 ^ 32 := by
  unfold ofInt32
  omega

theorem be32_length (n : Nat) : (be32 n).length = 4 := rfl

theorem readU32_be32 (n : Nat) (rest : List Byte) (h : n < 2 ^ 32) :
    readU32 (be32 n ++ rest) 0 = some n := by
  simp only [readU32, be32, List.cons_append, List.getElem?_cons_zero,
    List.getElem?_cons_succ, Option.some.injEq]
  omega

theorem getD_append_add (a b : List Byte) (k : Nat) (d : Byte) :
    (a ++ b).getD (a.length + k) d = b.getD k d := by
  simp [List.getD, List.getElem?_append_right (by omega : a.length ≤ a.length + k)]

theorem readU32_shift (a b : List Byte) (k : Nat) :
    readU32 (a ++ b) (a.length + k) = readU32 b k := by
  unfold readU32
  rw [show a.length + k + 1 = a.length + (k + 1) by omega,
      show a.length + k + 2 = a.length + (k + 2) by omega,
      show a.length + k + 3 = a.length + (k + 3) by omega]
  rw [List.getElem?_append_right (by omega : a.length ≤ a.length + k),
      List.getElem?_append_right (by omega : a.length ≤ a.length + (k + 1)),
      List.getElem?_append_right (by omega : a.length ≤ a.length + (k + 2)),
      List.getElem?_append_right (by omega : a.length ≤ a.length + (k + 3))]
  simp only [Nat.add_sub_cancel_left]

theorem readU32_append0 (a b : List Byte) : readU32 (a ++ b) a.length = readU32 b 0 := by
  simpa using readU32_shift a b 0

theorem readU32_be32_skip (n : Nat) (b : List Byte) :
    readU32 (be32 n ++ b) 4 = readU32 b 0 := by
  simpa [be32_length] using readU32_shift (be32 n) b 0

theorem readU32D_shift (a b : List Byte) (k : Nat) :
    readU32D (a ++ b) (a.length + k) = readU32D b k := by
  unfold readU32D
  rw [show a.length + k + 1 = a.length + (k + 1) by omega,
      show a.length + k + 2 = a.length + (k + 2) by omega,
      show a.length + k + 3 = a.length + (k + 3) by omega,
      getD_append_add, getD_append_add, getD_append_add, getD_append_add]

theorem readU32D_be32 (n : Nat) (rest : List Byte) (h : n < 2 ^ 32) :
    readU32D (be32 n ++ rest) 0 = n := by
  simp only [readU32D, be32, List.cons_append, List.getD_cons_zero, List.getD_cons_succ]
  omega

theorem drop_shift (a b : List Byte) (i : Nat) :
    (a ++ b).drop (a.length + i) = b.drop i :=
  List.drop_append i

theorem drop_be32 (n : Nat) (b : List Byte) : (be32 n ++ b).drop 4 = b := by
  have h := List.drop_left (be32 n) b
  rwa [be32_length] at h

theorem drop8_be32 (n m : Nat) (b : List Byte) :
    (be32 n ++ (be32 m ++ b)).drop 8 = b := by
  have h := drop_shift (be32 n) (be32 m ++ b) 4
  rw [be32_length] at h
  rw [show (8 : Nat) = 4 + 4 from rfl, h, drop_be32]

theorem drop12_be32 (n m k : Nat) (b : List Byte) :
    (be32 n ++ (be32 m ++ (be32 k ++ b))).drop 12 = b := by
  have h := drop_shift (be32 n) (be32 m ++ (be32 k ++ b)) 8
  rw [be32_length] at h
  rw [show (12 : Nat) = 4 + 8 from rfl, h, drop8_be32]

theorem isDigit_digitByte (d : Nat) : isDigit (digitByte d) = true := by
  unfold isDigit digitByte
  simp only [decide_eq_true_eq]
  omega

theorem digitVal_digitByte (d : Nat) (h : d < 10) : digitVal (digitByte d) = d := by
  unfold digitVal digitByte
  simp only
  omega

theorem headerDecodeE_valid (d1 d2 d3 d4 : Nat) (pad1 pad2 : Byte)
    (h1 : d1 < 10) (h2 : d2 < 10) (h3 : d3 < 10) (h4 : d4 < 10) :
    headerDecodeE [0x47, 0x53, 0x46, 0x2D, 0x76, digitByte d1, digitByte d2, 0x2E,
      digitByte d3, digitByte d4, pad1, pad2] = .ok ⟨d1 * 10 + d2, d3 * 10 + d4⟩ := by
  unfold headerDecodeE
  simp only [List.length_cons, List.length_nil, List.getD_cons_zero, List.getD_cons_succ,
    isDigit_digitByte, digitVal_digitByte _ h1, digitVal_digitByte _ h2,
    digitVal_digitByte _ h3, digitVal_digitByte _ h4]
  norm_num
  split_ifs with hA hB hC
  · exact absurd hA (by decide)
  · rfl
  · exact absurd (by decide) hC
  · exact absurd (by decide) hB

theorem headerDecodeE_encodeHeader (maj min : Nat) (pad1 pad2 : Byte)
    (hmaj : maj < 100) (hmin : min < 100) :
    headerDecodeE (encodeHeader maj min pad1 pad2) = .ok ⟨maj, min⟩ := by
  unfold encodeHeader
  rw [headerDecodeE_valid _ _ _ _ pad1 pad2 (by omega) (by omega) (by omega) (by omega)]
  have e1 : maj / 10 * 10 + maj % 10 = maj := by omega
  have e2 : min / 10 * 10 + min % 10 = min := by omega
  rw [e1, e2]

theorem commentDecodeE_encode (sec nsec : Int) (text : List Byte)
    (hs1 : -(2 ^ 31) ≤ sec) (hs2 : sec < 2 ^ 31)
    (hn1 : -(2 ^ 31) ≤ nsec) (hn2 : nsec < 2 ^ 31)
    (ht : text.length < 2 ^ 32) :
    commentDecodeE (encodeComment sec nsec text) =
      .ok ⟨epochToTime sec nsec, text⟩ := by
  have e0 : readU32D (encodeComment sec nsec text) 0 = ofInt32 sec := by
    unfold encodeComment
    exact readU32D_be32 _ _ (ofInt32_lt sec)
  have e4 : readU32D (encodeComment sec nsec text) 4 = ofInt32 nsec := by
    unfold encodeComment
    have h := readU32D_shift (be32 (ofInt32 sec))
      (be32 (ofInt32 nsec) ++ (be32 text.length ++ (text ++ List.replicate (pad4 text.length) 0))) 0
    rw [be32_length] at h
    simpa using h.trans (readU32D_be32 _ _ (ofInt32_lt nsec))
  have e8 : readU32D (encodeComment sec nsec text) 8 = text.length := by
    unfold encodeComment
    have h1 := readU32D_shift (be32 (ofInt32 sec))
      (be32 (ofInt32 nsec) ++ (be32 text.length ++ (text ++ List.replicate (pad4 text.length) 0))) 4
    rw [be32_length] at h1
    have h2 := readU32D_shift (be32 (ofInt32 nsec))
      (be32 text.length ++ (text ++ List.replicate (pad4 text.length) 0)) 0
    rw [be32_length] at h2
    simp only [List.append_assoc] at h1 h2 ⊢
    rw [show (8 : Nat) = 4 + 4 from rfl, h1, h2, readU32D_be32 _ _ ht]
  have elen : (encodeComment sec nsec text).length =
      12 + text.length + pad4 text.length := by
    simp [encodeComment, be32]
    omega
  have edrop : (encodeComment sec nsec text).drop 12 =
      text ++ List.replicate (pad4 text.length) 0 := by
    unfold encodeComment
    simp only [List.append_assoc]
    exact drop12_be32 _ _ _ _
  unfold commentDecodeE
  rw [e0, e4, e8, elen, if_neg (by omega), edrop, toInt32_ofInt32 sec hs1 hs2,
    toInt32_ofInt32 nsec hn1 hn2, List.take_left]

theorem encodeFrame_length (rtype : Nat) (chk : Option Nat) (payload : List Byte) :
    (encodeFrame rtype chk payload).length =
      8 + (if chk.isSome then 4 else 0) + payload.length := by
  rcases chk with _ | c <;> simp [encodeFrame, be32_length] <;> omega

theorem framerNext_frame_noChk (pre rest payload : List Byte) (rtype : Nat)
    (hr : rtype < 2 ^ 31) (hsz : 4 + payload.length < 2 ^ 32) :
    framerNext (pre ++ (encodeFrame rtype none payload ++ rest)) pre.length =
      some (.view ⟨recordTypeOfNat rtype, rtype, payload⟩,
        pre.length + 8 + payload.length) := by
  have hE : encodeFrame rtype none payload ++ rest =
      be32 (4 + payload.length) ++ (be32 rtype ++ (payload ++ rest)) := by
    simp [encodeFrame]
  rw [hE]
  have hlen : (pre ++ (be32 (4 + payload.length) ++ (be32 rtype ++ (payload ++ rest)))).length =
      pre.length + 8 + payload.length + rest.length := by
    simp [be32_length]
    omega
  unfold framerNext
  rw [hlen]
  rw [if_neg (by omega), if_neg (by omega)]
  rw [readU32_append0, readU32_be32 _ _ (by omega)]
  rw [Option.some_bind]
  rw [if_neg (by omega)]
  rw [readU32_shift pre _ 4, readU32_be32_skip, readU32_be32 _ _ (by omega)]
  rw [Option.some_bind]
  rw [if_neg (show ¬(2 ^ 31 : Nat) ≤ rtype from by omega)]
  rw [if_neg (show ¬4 + payload.length < 4 + 0 from by omega)]
  rw [show pre.length + 4 + (4 + 0) = pre.length + 8 from by omega]
  rw [show 4 + payload.length - (4 + 0) = payload.length from by omega]
  rw [drop_shift pre _ 8, drop8_be32, List.take_left,
    Nat.mod_eq_of_lt hr]
  simp only [Option.some.injEq, Prod.mk.injEq, and_true, true_and]
  omega

theorem framerNext_frame_chk (pre rest payload : List Byte) (rtype c : Nat)
    (hr : rtype < 2 ^ 31) (hsz : 8 + payload.length < 2 ^ 32) :
    framerNext (pre ++ (encodeFrame rtype (some c) payload ++ rest)) pre.length =
      some (.view ⟨recordTypeOfNat rtype, rtype, payload⟩,
        pre.length + 12 + payload.length) := by
  have hE : encodeFrame rtype (some c) payload ++ rest =
      be32 (8 + payload.length) ++ (be32 (rtype + 2 ^ 31) ++ (be32 c ++ (payload ++ rest))) := by
    simp [encodeFrame]
  rw [hE]
  have hlen : (pre ++ (be32 (8 + payload.length) ++ (be32 (rtype + 2 ^ 31) ++
      (be32 c ++ (payload ++ rest))))).length =
      pre.length + 12 + payload.length + rest.length := by
    simp [be32_length]
    omega
  unfold framerNext
  rw [hlen]
  rw [if_neg (by omega), if_neg (by omega)]
  rw [readU32_append0, readU32_be32 _ _ (by omega)]
  rw [Option.some_bind]
  rw [if_neg (by omega)]
  rw [readU32_shift pre _ 4, readU32_be32_skip, readU32_be32 _ _ (by omega)]
  generalize hg : rtype + 2 ^ 31 = tfv
  rw [Option.some_bind]
  rw [if_pos (show (2 ^ 31 : Nat) ≤ tfv from by omega)]
  rw [if_neg (show ¬8 + payload.length < 4 + 4 from by omega)]
  rw [show pre.length + 4 + (4 + 4) = pre.length + 12 from by omega]
  rw [show 8 + payload.length - (4 + 4) = payload.length from by omega]
  rw [drop_shift pre _ 12, drop12_be32, List.take_left,
    show tfv % 2 ^ 31 = rtype from by omega]
  simp only [Option.some.injEq, Prod.mk.injEq, and_true, true_and]
  omega

theorem framerNext_frame (pre rest payload : List Byte) (rtype : Nat)
    (chk : Option Nat) (hr : rtype < 2 ^ 31) (hsz : 8 + payload.length < 2 ^ 32) :
    framerNext (pre ++ (encodeFrame rtype chk payload ++ rest)) pre.length =
      some (.view ⟨recordTypeOfNat rtype, rtype, payload⟩,
        pre.length + (encodeFrame rtype chk payload).length) := by
  rcases chk with _ | c
  · rw [framerNext_frame_noChk pre rest payload rtype hr (by omega), encodeFrame_length]
    simp only [Option.isSome_none, Bool.false_eq_true, if_false, Option.some.injEq,
      Prod.mk.injEq, true_and]
    omega
  · rw [framerNext_frame_chk pre rest payload rtype c hr hsz, encodeFrame_length]
    simp only [Option.isSome_some, if_true, Option.some.injEq, Prod.mk.injEq, true_and]
    omega

theorem framerNext_end (src : List Byte) (cursor : Nat) (h : src.length ≤ cursor) :
    framerNext src cursor = some (.endOfStream, cursor) := by
  unfold framerNext
  rw [if_pos h]

theorem pad4_le (n : Nat) : pad4 n ≤ 3 := by
  unfold pad4
  omega

/-- Claim C2: for every 12-byte HEADER payload of the exact form "GSF-v",
two ASCII decimal digits, an ASCII dot, two more ASCII decimal digits, and
two ignored padding bytes, `Header::Decode` succeeds and returns the
`HeaderRecord` whose `version_major` and `version_minor` equal the integers
encoded by the two digit pairs. -/
theorem headerDecode_valid_payload (d1 d2 d3 d4 : Nat) (pad1 pad2 : Byte)
    (h1 : d1 < 10) (h2 : d2 < 10) (h3 : d3 < 10) (h4 : d4 < 10) :
    headerDecode [0x47, 0x53, 0x46, 0x2D, 0x76, digitByte d1, digitByte d2, 0x2E,
      digitByte d3, digitByte d4, pad1, pad2] = some ⟨d1 * 10 + d2, d3 * 10 + d4⟩ := by
  unfold headerDecode
  rw [headerDecodeE_valid d1 d2 d3 d4 pad1 pad2 h1 h2 h3 h4]
  rfl

theorem headerDecode_valid_payload_witness :
    headerDecode [0x47, 0x53, 0x46, 0x2D, 0x76, digitByte 0, digitByte 1, 0x2E,
      digitByte 1, digitByte 0, 0, 0] = some ⟨0 * 10 + 1, 1 * 10 + 0⟩ :=
  headerDecode_valid_payload 0 1 1 0 0 0 (by decide) (by decide) (by decide) (by decide)

/-- Claim C3: `Header::Decode` returns no result for every payload whose
length is not exactly 12, for every 12-byte payload whose first five bytes
are not the ASCII literal "GSF-v", and for every payload whose byte 7 is
not the ASCII dot; the internal error kinds witness that the length check
precedes the magic check, which precedes the dot check. -/
theorem headerDecode_rejects (p : List Byte) :
    (p.length ≠ 12 → headerDecodeE p = .error .wrongSize ∧ headerDecode p = none) ∧
    (p.length = 12 →
      ¬((p.getD 0 0).val = 0x47 ∧ (p.getD 1 0).val = 0x53 ∧ (p.getD 2 0).val = 0x46 ∧
        (p.getD 3 0).val = 0x2D ∧ (p.getD 4 0).val = 0x76) →
      headerDecodeE p = .error .badMagic ∧ headerDecode p = none) ∧
    ((p.getD 7 0).val ≠ 0x2E → headerDecode p = none) := by
  refine ⟨?_, ?_, ?_⟩
  · intro hlen
    have hE : headerDecodeE p = .error .wrongSize := by
      unfold headerDecodeE
      rw [if_pos hlen]
    refine ⟨hE, ?_⟩
    unfold headerDecode
    rw [hE]
    rfl
  · intro hlen hm
    have hE : headerDecodeE p = .error .badMagic := by
      unfold headerDecodeE
      rw [if_neg (show ¬p.length ≠ 12 from by omega)]
      by_cases h0 : ((p.getD 0 0).val = 0x47 ∧ (p.getD 1 0).val = 0x53 ∧
          (p.getD 2 0).val = 0x46 ∧ (p.getD 3 0).val = 0x2D)
      · have hv : (p.getD 4 0).val ≠ 0x76 := fun hv =>
          hm ⟨h0.1, h0.2.1, h0.2.2.1, h0.2.2.2, hv⟩
        rw [if_neg (not_not_intro h0), if_pos hv]
      · rw [if_pos h0]
    refine ⟨hE, ?_⟩
    unfold headerDecode
    rw [hE]
    rfl
  · intro hdot
    unfold headerDecode headerDecodeE
    split_ifs <;> first | rfl | simp_all

theorem headerDecode_rejects_witness :
    (headerDecodeE [0x47, 0x53, 0x46, 0x2D, 0x76, 0x30, 0x32, 0x2E, 0x30, 0x39, 0x00] =
        Except.error .wrongSize ∧
      headerDecode [0x47, 0x53, 0x46, 0x2D, 0x76, 0x30, 0x32, 0x2E, 0x30, 0x39, 0x00] =
        none) ∧
    (headerDecodeE [0x48, 0x53, 0x46, 0x2D, 0x76, 0x30, 0x32, 0x2E, 0x30, 0x39, 0, 0] =
        Except.error .badMagic ∧
      headerDecode [0x48, 0x53, 0x46, 0x2D, 0x76, 0x30, 0x32, 0x2E, 0x30, 0x39, 0, 0] =
        none) ∧
    headerDecode [0x47, 0x53, 0x46, 0x2D, 0x76, 0x30, 0x32, 0x2D, 0x30, 0x39, 0, 0] =
      none :=
  ⟨(headerDecode_rejects _).1 (by decide),
   (headerDecode_rejects _).2.1 (by decide) (by decide),
   (headerDecode_rejects _).2.2 (by decide)⟩

/-- Claim C5: for every COMMENT payload whose declared text length `N`
makes the payload shorter than `12 + N` bytes, `Comment::Decode` fails:
internally the failure kind is `Truncated` and at the interface no value
is returned. -/
theorem commentDecode_truncated (p : List Byte) (n : Nat)
    (hn : readU32D p 8 = n) (hshort : p.length < 12 + n) :
    commentDecodeE p = .error .truncated ∧ commentDecode p = none := by
  have hE : commentDecodeE p = .error .truncated := by
    unfold commentDecodeE
    rw [hn, if_pos hshort]
  refine ⟨hE, ?_⟩
  unfold commentDecode
  rw [hE]
  rfl

theorem commentDecode_truncated_witness :
    commentDecodeE [0, 0, 0, 1, 0, 0, 0, 2, 0, 0, 0, 9] = Except.error .truncated ∧
    commentDecode [0, 0, 0, 1, 0, 0, 0, 2, 0, 0, 0, 9] = none :=
  commentDecode_truncated _ 9 (by decide) (by decide)

/-- Claim C6: whenever the declared frame size would extend past the
remaining bytes of the source, or the computed payload length would be
negative (size below the bytes consumed by the type word and, when the
checksum flag is set, the checksum word), `RecordFramer.next()` returns
`FrameError(InvalidLength)` without advancing the cursor; the result being
a value of the model (not the out-of-bounds `none`) shows no byte outside
the source is read. -/
theorem framerNext_invalid_length (src : List Byte) (cursor size : Nat)
    (h4 : cursor + 4 ≤ src.length)
    (hsz : readU32 src cursor = some size)
    (hbad : src.length < cursor + 4 + size ∨ size < 4 ∨
      (∃ tf, readU32 src (cursor + 4) = some tf ∧ 2 ^ 31 ≤ tf ∧ size < 8)) :
    framerNext src cursor = some (.err .invalidLength, cursor) := by
  unfold framerNext
  rw [if_neg (by omega), if_neg (by omega), hsz, Option.some_bind]
  by_cases hfirst : src.length < cursor + 4 + size ∨ size < 4
  · rw [if_pos hfirst]
  · rw [if_neg hfirst]
    rcases hbad with h1 | h2 | ⟨tf, htf, hflag, hs8⟩
    · exact absurd (Or.inl h1) hfirst
    · exact absurd (Or.inr h2) hfirst
    · rw [htf, Option.some_bind]
      rw [if_pos hflag]
      rw [if_pos (by omega : size < 4 + 4)]

theorem framerNext_invalid_length_witness :
    framerNext [0, 0, 0, 99, 0, 0, 0, 1] 0 = some (.err .invalidLength, 0) :=
  framerNext_invalid_length [0, 0, 0, 99, 0, 0, 0, 1] 0 99 (by decide) (by decide)
    (Or.inl (by decide))

/-- Claim C7: on a byte source with no bytes left (`cursor ≥ end` holds at
entry), `RecordFramer.next()` returns `EndOfStream` immediately: no read is
attempted and no error is signalled. -/
theorem framerNext_empty_source (src : List Byte) (cursor : Nat)
    (h : src.length ≤ cursor) :
    framerNext src cursor = some (.endOfStream, cursor) := by
  unfold framerNext
  rw [if_pos h]

theorem framerNext_empty_source_witness :
    framerNext [] 0 = some (.endOfStream, 0) :=
  framerNext_empty_source [] 0 (by decide)

/-- Claim C4: for every valid COMMENT payload (big-endian int32 seconds,
int32 nanoseconds, uint32 text length `N`, `N` text bytes, NUL padding to a
4-byte boundary), `Comment::Decode` succeeds, returns exactly the original
`N` text bytes with the padding excluded, and a timestamp equal to
`epochToTime(seconds, nanoseconds)` whose fractional-seconds value is
within 1e-6 seconds of `seconds + nanoseconds / 1e9` (in the exact
rational model of the float64 conversion the difference is zero). -/
theorem commentDecode_valid_payload (sec nsec : Int) (text : List Byte)
    (hs1 : -(2 ^ 31) ≤ sec) (hs2 : sec < 2 ^ 31)
    (hn1 : -(2 ^ 31) ≤ nsec) (hn2 : nsec < 2 ^ 31)
    (ht : text.length < 2 ^ 32) :
    commentDecode (encodeComment sec nsec text) =
      some ⟨epochToTime sec nsec, text⟩ ∧
    |timeToSeconds (epochToTime sec nsec) - ((sec : ℚ) + (nsec : ℚ) / 10 ^ 9)| ≤
      1 / 10 ^ 6 := by
  constructor
  · unfold commentDecode
    rw [commentDecodeE_encode sec nsec text hs1 hs2 hn1 hn2 ht]
    rfl
  · have he : timeToSeconds (epochToTime sec nsec) =
        (sec : ℚ) + (nsec : ℚ) / 10 ^ 9 := by
      unfold timeToSeconds epochToTime
      push_cast
      ring
    rw [he, sub_self, abs_zero]
    norm_num

theorem commentDecode_valid_payload_witness :
    commentDecode (encodeComment 1 2 [0x61, 0x62, 0x63, 0x64, 0x65]) =
      some ⟨epochToTime 1 2, [0x61, 0x62, 0x63, 0x64, 0x65]⟩ ∧
    |timeToSeconds (epochToTime 1 2) - ((1 : ℚ) + (2 : ℚ) / 10 ^ 9)| ≤ 1 / 10 ^ 6 :=
  commentDecode_valid_payload 1 2 [0x61, 0x62, 0x63, 0x64, 0x65]
    (by decide) (by decide) (by decide) (by decide) (by decide)

/-- Claim C8: the time codec round-trips: for every signed seconds value
`s` and nanoseconds value `n`, `timeToSeconds (epochToTime s n)` is within
the stated tolerance of `s + n / 1e9` (exactly equal in the rational model
of the float64 conversion, so in particular within 1e-7), and the two
representative inputs evaluate to exactly 1.000000002 and
1436931405.987654321 seconds. -/
theorem time_roundtrip (s n : Int) :
    |timeToSeconds (epochToTime s n) - ((s : ℚ) + (n : ℚ) / 10 ^ 9)| ≤ 1 / 10 ^ 7 ∧
    timeToSeconds (epochToTime 1 2) = 1000000002 / 10 ^ 9 ∧
    timeToSeconds (epochToTime 1436931405 987654321) =
      1436931405987654321 / 10 ^ 9 := by
  refine ⟨?_, ?_, ?_⟩
  · have he : timeToSeconds (epochToTime s n) = (s : ℚ) + (n : ℚ) / 10 ^ 9 := by
      unfold timeToSeconds epochToTime
      push_cast
      ring
    rw [he, sub_self, abs_zero]
    norm_num
  · unfold timeToSeconds epochToTime
    norm_num
  · unfold timeToSeconds epochToTime
    norm_num

/-- Claim C9: contrary to the claim, the CLI tool `gsfxx::Info` does not
terminate with a defined non-zero exit status when `Open`, the first
`next()`, or the first decode fails: the source checks none of these
results for null, so each failure dereferences a null pointer (undefined
behaviour, modelled as a crash), and the only defined return path exits
with status 0.  The four inputs below are a failed `Open`, an empty
source (first `NextBuffer` returns null at end of stream), a truncated
source (first `NextBuffer` returns null on a frame error), and a
well-framed record whose HEADER payload does not decode. -/
theorem info_failure_crashes :
    Info none = ExitStatus.crash ∧
    Info (some []) = ExitStatus.crash ∧
    Info (some [0, 0, 0]) = ExitStatus.crash ∧
    Info (some [0, 0, 0, 4, 0, 0, 0, 1]) = ExitStatus.crash := by
  refine ⟨rfl, ?_, ?_, ?_⟩ <;> decide

/-- Claim C10: at the public interface both decoders collapse every failure
kind to the same absent value: the interface result is exactly the
kind-erasure of the internal result, any internal error yields `none`, and
every payload produces either a decoded record or `none`; four payloads
failing with the four distinct internal kinds (`WrongSize`, `BadMagic`,
`BadVersion`, `Truncated`) are all indistinguishable (`none`) at the
interface. -/
theorem decode_failures_collapse :
    (∀ p, headerDecode p = (headerDecodeE p).toOption) ∧
    (∀ p, commentDecode p = (commentDecodeE p).toOption) ∧
    (∀ p e, headerDecodeE p = .error e → headerDecode p = none) ∧
    (∀ p e, commentDecodeE p = .error e → commentDecode p = none) ∧
    (∀ p, headerDecode p = none ∨ ∃ r, headerDecode p = some r) ∧
    (∀ p, commentDecode p = none ∨ ∃ r, commentDecode p = some r) ∧
    headerDecodeE (List.replicate 11 0) = .error .wrongSize ∧
    headerDecodeE [0x48, 0x53, 0x46, 0x2D, 0x76, 0x30, 0x32, 0x2E, 0x30, 0x39, 0, 0] =
      .error .badMagic ∧
    headerDecodeE [0x47, 0x53, 0x46, 0x2D, 0x76, 0x30, 0x32, 0x2D, 0x30, 0x39, 0, 0] =
      .error .badVersion ∧
    commentDecodeE [0, 0, 0, 1, 0, 0, 0, 2, 0, 0, 0, 7] = .error .truncated ∧
    headerDecode (List.replicate 11 0) = none ∧
    headerDecode [0x48, 0x53, 0x46, 0x2D, 0x76, 0x30, 0x32, 0x2E, 0x30, 0x39, 0, 0] =
      none ∧
    headerDecode [0x47, 0x53, 0x46, 0x2D, 0x76, 0x30, 0x32, 0x2D, 0x30, 0x39, 0, 0] =
      none ∧
    commentDecode [0, 0, 0, 1, 0, 0, 0, 2, 0, 0, 0, 7] = none := by
  refine ⟨fun p => rfl, fun p => rfl, ?_, ?_, ?_, ?_, by rfl, by rfl, by rfl,
    by rfl, by rfl, by rfl, by rfl, by rfl⟩
  · intro p e h
    unfold headerDecode
    rw [h]
    rfl
  · intro p e h
    unfold commentDecode
    rw [h]
    rfl
  · intro p
    rcases h : headerDecode p with _ | r
    · exact Or.inl rfl
    · exact Or.inr ⟨r, rfl⟩
  · intro p
    rcases h : commentDecode p with _ | r
    · exact Or.inl rfl
    · exact Or.inr ⟨r, rfl⟩

theorem decode_failures_collapse_witness :
    headerDecode (List.replicate 11 0) = none :=
  decode_failures_collapse.2.2.1 (List.replicate 11 0) FormatError.wrongSize (by rfl)

/-- Claim C1: for every byte source holding exactly one well-formed HEADER
frame followed by one well-formed COMMENT frame followed by end-of-data
(each frame a big-endian size, a type-and-flags word, an optional checksum
word when the flag bit is set, and the payload), repeated `next()` calls
yield exactly two records, in that order: the first a HEADER view whose
decode returns the encoded version pair, the second a COMMENT view whose
decode returns the encoded timestamp and text, and the third call returns
`EndOfStream`. -/
theorem stream_header_comment_end (maj min : Nat) (pad1 pad2 : Byte)
    (sec nsec : Int) (text : List Byte) (chk1 chk2 : Option Nat)
    (hmaj : maj < 100) (hmin : min < 100)
    (hs1 : -(2 ^ 31) ≤ sec) (hs2 : sec < 2 ^ 31)
    (hn1 : -(2 ^ 31) ≤ nsec) (hn2 : nsec < 2 ^ 31)
    (ht : text.length < 2 ^ 31) :
    ∃ v1 c1 v2 c2,
      framerNext (encodeFrame 1 chk1 (encodeHeader maj min pad1 pad2) ++
        encodeFrame 6 chk2 (encodeComment sec nsec text)) 0 = some (.view v1, c1) ∧
      v1.rtype = RecordType.header ∧
      headerDecode v1.payload = some ⟨maj, min⟩ ∧
      framerNext (encodeFrame 1 chk1 (encodeHeader maj min pad1 pad2) ++
        encodeFrame 6 chk2 (encodeComment sec nsec text)) c1 = some (.view v2, c2) ∧
      v2.rtype = RecordType.comment ∧
      commentDecode v2.payload = some ⟨epochToTime sec nsec, text⟩ ∧
      framerNext (encodeFrame 1 chk1 (encodeHeader maj min pad1 pad2) ++
        encodeFrame 6 chk2 (encodeComment sec nsec text)) c2 =
        some (.endOfStream, c2) := by
  have hp2len : (encodeComment sec nsec text).length =
      12 + text.length + pad4 text.length := by
    simp [encodeComment, be32]
    omega
  have hpl3 := pad4_le text.length
  have hsz1 : 8 + (encodeHeader maj min pad1 pad2).length < 2 ^ 32 := by
    rw [show (encodeHeader maj min pad1 pad2).length = 12 from rfl]
    norm_num
  have hsz2 : 8 + (encodeComment sec nsec text).length < 2 ^ 32 := by
    rw [hp2len]
    omega
  have step1 := framerNext_frame [] (encodeFrame 6 chk2 (encodeComment sec nsec text))
    (encodeHeader maj min pad1 pad2) 1 chk1 (by norm_num) hsz1
  simp only [List.nil_append, List.length_nil, Nat.zero_add] at step1
  have step2 := framerNext_frame (encodeFrame 1 chk1 (encodeHeader maj min pad1 pad2)) []
    (encodeComment sec nsec text) 6 chk2 (by norm_num) hsz2
  simp only [List.append_nil] at step2
  have step3 : framerNext (encodeFrame 1 chk1 (encodeHeader maj min pad1 pad2) ++
      encodeFrame 6 chk2 (encodeComment sec nsec text))
      ((encodeFrame 1 chk1 (encodeHeader maj min pad1 pad2)).length +
        (encodeFrame 6 chk2 (encodeComment sec nsec text)).length) =
      some (.endOfStream,
        (encodeFrame 1 chk1 (encodeHeader maj min pad1 pad2)).length +
        (encodeFrame 6 chk2 (encodeComment sec nsec text)).length) :=
    framerNext_end _ _ (by simp [List.length_append])
  refine ⟨_, _, _, _, step1, rfl, ?_, step2, rfl, ?_, step3⟩
  · unfold headerDecode
    rw [headerDecodeE_encodeHeader maj min pad1 pad2 hmaj hmin]
    rfl
  · unfold commentDecode
    rw [commentDecodeE_encode sec nsec text hs1 hs2 hn1 hn2 (by omega)]
    rfl

theorem stream_header_comment_end_witness :
    ∃ v1 c1 v2 c2,
      framerNext (encodeFrame 1 none (encodeHeader 1 10 0 0) ++
        encodeFrame 6 (some 7) (encodeComment 1 2 [0x61, 0x62, 0x63, 0x64, 0x65])) 0 =
        some (.view v1, c1) ∧
      v1.rtype = RecordType.header ∧
      headerDecode v1.payload = some ⟨1, 10⟩ ∧
      framerNext (encodeFrame 1 none (encodeHeader 1 10 0 0) ++
        encodeFrame 6 (some 7) (encodeComment 1 2 [0x61, 0x62, 0x63, 0x64, 0x65])) c1 =
        some (.view v2, c2) ∧
      v2.rtype = RecordType.comment ∧
      commentDecode v2.payload = some ⟨epochToTime 1 2, [0x61, 0x62, 0x63, 0x64, 0x65]⟩ ∧
      framerNext (encodeFrame 1 none (encodeHeader 1 10 0 0) ++
        encodeFrame 6 (some 7) (encodeComment 1 2 [0x61, 0x62, 0x63, 0x64, 0x65])) c2 =
        some (.endOfStream, c2) :=
  stream_header_comment_end 1 10 0 0 1 2 [0x61, 0x62, 0x63, 0x64, 0x65] none (some 7)
    (by decide) (by decide) (by decide) (by decide) (by decide) (by decide) (by decide)

end Gsfxx
